import Mathlib

/-!
Verification development for the HQC-DDI prototype
(`src/hqc_ddi_vqe_prototype.py`).

The Python source is shallowly embedded below:
* floats are modelled as rationals (`ℚ`);
* calls to `np.random.random` are modelled by explicit streams supplied as
  parameters (`hamRand` for the Hamiltonian entries, `initRand` for the
  initial parameter vector, `evalRand` for the per-evaluation noise used by
  `_quantum_evaluate`);
* Python dicts used as finite maps become association lists
  (`List (String × _)` with `List.lookup`);
* `problem_config.get(key, default)` becomes `Option _` fields read with
  `Option.getD`;
* mutation of `self` becomes explicit state passing.

`scipy.optimize.minimize` (COBYLA) is third-party library code, not part of
this repository; it is modelled from the specification's §4.6 contract (see
`minimizeLoop` / `minimize` below).
-/

/-! ## DP2: DataGovernanceManager -/

/-- One entry of the compliance audit log written by the governance
manager's `_audit_log` method; `datetime.now().isoformat()` is modelled by
an explicit `timestamp` string argument. -/
structure AuditEntry where
  timestamp : String
  event_type : String
  user : String
  details : String
deriving Repr, DecidableEq

/-- A metadata record as created by `create_dataset_metadata`.  The
`quality_metrics` key does not exist until `record_data_quality` adds it,
hence the `Option`. -/
structure Metadata where
  dataset_id : String
  created_timestamp : String
  data_owner : String
  purpose : String
  classification : String
  data_type : String
  provenance : List String
  policies : List String
  quality_score : ℚ
  quality_metrics : Option (List (String × ℚ))
deriving Repr, DecidableEq

/-- The mutable state of a `DataGovernanceManager` instance:
`self.metadata_store` (a dict, modelled as an association list) and
`self.audit_log`. -/
structure GovState where
  metadata_store : List (String × Metadata)
  audit_log : List AuditEntry
deriving Repr, DecidableEq

/-- `DataGovernanceManager.ROLES`: the five statically defined roles and
their permission lists. -/
def ROLES : List (String × List String) :=
  [("data_owner", ["read", "write", "approve", "delete"]),
   ("quantum_specialist", ["read", "execute_quantum", "write_results"]),
   ("classical_specialist", ["read", "execute_classical", "write_results"]),
   ("data_steward", ["read", "validate_quality", "audit"]),
   ("compliance_officer", ["read", "audit", "policy_enforcement"])]

/-- `DataGovernanceManager._audit_log`: appends one entry to
`self.audit_log` (the `print` side effect is not modelled). -/
def audit_log_event (gov : GovState) (now event_type user details : String) : GovState :=
  { gov with audit_log := gov.audit_log ++ [⟨now, event_type, user, details⟩] }

/-- `DataGovernanceManager.check_access`: RBAC check.  Returns the boolean
together with the updated state (one audit entry is always written). -/
def check_access (gov : GovState) (now user role action : String) : Bool × GovState :=
  match ROLES.lookup role with
  | none => (false, audit_log_event gov now "DENIED" user ("Invalid role: " ++ role))
  | some perms =>
      if action ∉ perms then
        (false, audit_log_event gov now "DENIED" user
          ("Role " ++ role ++ " cannot perform " ++ action))
      else
        (true, audit_log_event gov now "GRANTED" user
          ("Action " ++ action ++ " approved for role " ++ role))

/-- `np.mean` over a list of rationals (division by zero yields 0 in `ℚ`,
standing in for NaN on an empty list; never reached by the claims below). -/
def np_mean (l : List ℚ) : ℚ := l.sum / l.length

/-- `DataGovernanceManager.record_data_quality`: if the dataset id exists in
the metadata store, set its `quality_metrics` and recompute
`quality_score`; otherwise do nothing. -/
def record_data_quality (gov : GovState) (dataset_id : String)
    (quality_metrics : List (String × ℚ)) : GovState :=
  if (gov.metadata_store.lookup dataset_id).isSome then
    { gov with metadata_store := gov.metadata_store.map (fun kv =>
        if kv.1 = dataset_id then
          (kv.1, { kv.2 with quality_metrics := some quality_metrics,
                             quality_score := np_mean (quality_metrics.map Prod.snd) })
        else kv) }
  else gov

/-! ## DP1: HybridQuantumOrchestrator -/

/-- One entry of `iteration_history`: the dict
`{"iteration": len(iteration_history), "params": params.tolist(),
"energy": float(energy)}` appended by `cost_function`. -/
structure EvaluationRecord where
  iteration : ℕ
  params : List ℚ
  energy : ℚ
deriving Repr, DecidableEq

/-- The ansatz description dict returned by `_construct_ansatz`. -/
structure Ansatz where
  type : String
  reps : ℕ
  entanglement : String
deriving Repr, DecidableEq

/-- `problem_config`: a dict with optional keys, read via
`problem_config.get(key, default)`. -/
structure ProblemConfig where
  n_qubits : Option ℕ
  num_parameters : Option ℕ
  ansatz_reps : Option ℕ
  backend : Option String
deriving Repr, DecidableEq

/-- The `workflow_result` dict packaged at the end of
`execute_vqe_workflow`. -/
structure WorkflowResult where
  backend : String
  problem : ProblemConfig
  optimal_params : List ℚ
  minimum_energy : ℚ
  iterations : List EvaluationRecord
  success : Bool
deriving Repr, DecidableEq

/-- The state of a `HybridQuantumOrchestrator` instance:
`self.backend_type` and `self.execution_history`. -/
structure Orchestrator where
  backend_type : String
  execution_history : List WorkflowResult
deriving Repr, DecidableEq

/-- The triple returned by `scipy.optimize.minimize` as consumed by the
source: `result.x`, `result.fun`, `result.success`. -/
structure OptimizeResult where
  x : List ℚ
  fun_val : ℚ
  success : Bool
deriving Repr, DecidableEq

/-- `HybridQuantumOrchestrator._construct_hamiltonian`:
`np.random.random((2**n_qubits, 2**n_qubits))` with
`n_qubits = problem_config.get("n_qubits", 2)`; the random entries come
from the stream `hamRand`. -/
def construct_hamiltonian (hamRand : ℕ → ℕ → ℚ) (problem_config : ProblemConfig) :
    List (List ℚ) :=
  (List.range (2 ^ problem_config.n_qubits.getD 2)).map (fun i =>
    (List.range (2 ^ problem_config.n_qubits.getD 2)).map (fun j => hamRand i j))

/-- `HybridQuantumOrchestrator._construct_ansatz`. -/
def construct_ansatz (problem_config : ProblemConfig) : Ansatz :=
  { type := "two_local", reps := problem_config.ansatz_reps.getD 2, entanglement := "full" }

/-- `HybridQuantumOrchestrator._quantum_evaluate`: ignores its arguments
and returns `np.random.random() - 0.5`; the random draw `u` is supplied
explicitly. -/
def quantum_evaluate (params : List ℚ) (hamiltonian : List (List ℚ)) (ansatz : Ansatz)
    (u : ℚ) : ℚ :=
  u - 1/2

/-- The `cost_function` closure defined inside `execute_vqe_workflow`: it
evaluates the energy and appends one record (whose `iteration` field is the
current history length) to `iteration_history`.  The captured mutable list
becomes explicit state; the `k`-th call draws `evalRand k` (the call
counter equals the history length, since this closure is the sole writer). -/
def cost_function (evalRand : ℕ → ℚ) (hamiltonian : List (List ℚ)) (ansatz : Ansatz)
    (params : List ℚ) (iteration_history : List EvaluationRecord) :
    ℚ × List EvaluationRecord :=
  let energy := quantum_evaluate params hamiltonian ansatz (evalRand iteration_history.length)
  (energy, iteration_history ++
    [{ iteration := iteration_history.length, params := params, energy := energy }])

/-- Modelled from the spec: the iteration phase of the `ClassicalOptimizer`
(`scipy.optimize.minimize` with COBYLA), which is external library code and
not part of this repository.  Per §4.6 the optimizer repeatedly proposes
candidate parameter vectors (here the abstract stream `proposals`),
evaluates each through the supplied cost function, and keeps track of the
best (least) value seen. -/
def minimizeLoop (cost : List ℚ → List EvaluationRecord → ℚ × List EvaluationRecord) :
    List (List ℚ) → (List ℚ × ℚ) → List EvaluationRecord →
      (List ℚ × ℚ) × List EvaluationRecord
  | [], best, hist => (best, hist)
  | p :: ps, best, hist =>
      let r := cost p hist
      minimizeLoop cost ps (if r.1 < best.2 then (p, r.1) else best) r.2

/-- Modelled from the spec: `scipy.optimize.minimize(cost_function,
init_params, method="COBYLA", options={"maxiter": max_iterations})` —
external library code, specified in §4.6.  It evaluates the initial point,
then at most `max_iterations` further proposals (the iteration cap is a
hard upper bound on cost-function invocations, with one extra evaluation
for the initial point), and returns the best parameters, the best value,
and the algorithm-reported `converged`/`success` flag. -/
def minimize (cost : List ℚ → List EvaluationRecord → ℚ × List EvaluationRecord)
    (init_params : List ℚ) (max_iterations : ℕ) (proposals : List (List ℚ))
    (converged : Bool) : OptimizeResult × List EvaluationRecord :=
  let r0 := cost init_params []
  let r := minimizeLoop cost (proposals.take max_iterations) (init_params, r0.1) r0.2
  ({ x := r.1.1, fun_val := r.1.2, success := converged }, r.2)

/-- `HybridQuantumOrchestrator.execute_vqe_workflow`: builds the
Hamiltonian and ansatz, draws the initial parameters
(`np.random.random(problem_config.get("num_parameters", 4))`, drawn from
`initRand`), runs the optimizer over the cost-function bridge, packages the
`workflow_result` dict and appends it to `self.execution_history`. -/
def execute_vqe_workflow (orch : Orchestrator) (hamRand : ℕ → ℕ → ℚ)
    (initRand : ℕ → ℚ) (evalRand : ℕ → ℚ) (proposals : List (List ℚ))
    (converged : Bool) (problem_config : ProblemConfig) (max_iterations : ℕ) :
    WorkflowResult × Orchestrator :=
  let hamiltonian := construct_hamiltonian hamRand problem_config
  let ansatz := construct_ansatz problem_config
  let init_params := (List.range (problem_config.num_parameters.getD 4)).map initRand
  let result := minimize (cost_function evalRand hamiltonian ansatz) init_params
    max_iterations proposals converged
  let workflow_result : WorkflowResult :=
    { backend := orch.backend_type
      problem := problem_config
      optimal_params := result.1.x
      minimum_energy := result.1.fun_val
      iterations := result.2
      success := result.1.success }
  (workflow_result,
   { orch with execution_history := orch.execution_history ++ [workflow_result] })

/-- `HybridQuantumOrchestrator._qiskit_simulator` (the adapter is modelled
by the string it returns). -/
def qiskit_simulator : String := "IBM Qiskit Simulator Backend"

/-- `HybridQuantumOrchestrator._aws_braket`. -/
def aws_braket : String := "AWS Braket Backend"

/-- `HybridQuantumOrchestrator._cuda_q`. -/
def cuda_q : String := "NVIDIA CUDA-Q Backend"

/-- The `adapters` dict built inside `get_backend_adapter`. -/
def adapters : List (String × String) :=
  [("qiskit_simulator", qiskit_simulator), ("braket", aws_braket), ("cuda_q", cuda_q)]

/-- `HybridQuantumOrchestrator.get_backend_adapter`:
`adapters.get(backend_type, self._qiskit_simulator)`. -/
def get_backend_adapter (backend_type : String) : String :=
  (adapters.lookup backend_type).getD qiskit_simulator

/-! ## Helper lemmas about the cost-function bridge and the optimizer loop -/

theorem cost_function_apply (evalRand : ℕ → ℚ) (ham : List (List ℚ)) (anz : Ansatz)
    (p : List ℚ) (hist : List EvaluationRecord) :
    cost_function evalRand ham anz p hist =
      (evalRand hist.length - 1/2,
       hist ++ [⟨hist.length, p, evalRand hist.length - 1/2⟩]) := rfl

theorem minimizeLoop_length (evalRand : ℕ → ℚ) (ham : List (List ℚ)) (anz : Ansatz) :
    ∀ (ps : List (List ℚ)) (best : List ℚ × ℚ) (hist : List EvaluationRecord),
      ((minimizeLoop (cost_function evalRand ham anz) ps best hist).2).length
        = hist.length + ps.length := by
  intro ps
  induction ps with
  | nil => intro best hist; simp [minimizeLoop]
  | cons p ps ih =>
      intro best hist
      simp only [minimizeLoop, cost_function_apply]
      rw [ih]
      simp only [List.length_append, List.length_cons, List.length_nil]
      omega

theorem minimizeLoop_prefix (evalRand : ℕ → ℚ) (ham : List (List ℚ)) (anz : Ansatz) :
    ∀ (ps : List (List ℚ)) (best : List ℚ × ℚ) (hist : List EvaluationRecord),
      ∃ t, (minimizeLoop (cost_function evalRand ham anz) ps best hist).2 = hist ++ t := by
  intro ps
  induction ps with
  | nil => intro best hist; exact ⟨[], by simp [minimizeLoop]⟩
  | cons p ps ih =>
      intro best hist
      simp only [minimizeLoop, cost_function_apply]
      obtain ⟨t, ht⟩ := ih (if evalRand hist.length - 1/2 < best.2
        then (p, evalRand hist.length - 1/2) else best)
        (hist ++ [⟨hist.length, p, evalRand hist.length - 1/2⟩])
      exact ⟨[⟨hist.length, p, evalRand hist.length - 1/2⟩] ++ t,
        by rw [ht, List.append_assoc]⟩

theorem minimizeLoop_indices (evalRand : ℕ → ℚ) (ham : List (List ℚ)) (anz : Ansatz) :
    ∀ (ps : List (List ℚ)) (best : List ℚ × ℚ) (hist : List EvaluationRecord),
      hist.map EvaluationRecord.iteration = List.range hist.length →
      ((minimizeLoop (cost_function evalRand ham anz) ps best hist).2).map
          EvaluationRecord.iteration
        = List.range ((minimizeLoop (cost_function evalRand ham anz) ps best hist).2).length := by
  intro ps
  induction ps with
  | nil => intro best hist h; simpa [minimizeLoop] using h
  | cons p ps ih =>
      intro best hist h
      simp only [minimizeLoop, cost_function_apply]
      apply ih
      simp [List.range_succ, h]

theorem minimizeLoop_min (evalRand : ℕ → ℚ) (ham : List (List ℚ)) (anz : Ansatz) :
    ∀ (ps : List (List ℚ)) (best : List ℚ × ℚ) (hist : List EvaluationRecord),
      (∃ r ∈ hist, r.energy = best.2) →
      (∀ r ∈ hist, best.2 ≤ r.energy) →
      (∃ r ∈ (minimizeLoop (cost_function evalRand ham anz) ps best hist).2,
          r.energy = (minimizeLoop (cost_function evalRand ham anz) ps best hist).1.2) ∧
      (∀ r ∈ (minimizeLoop (cost_function evalRand ham anz) ps best hist).2,
          (minimizeLoop (cost_function evalRand ham anz) ps best hist).1.2 ≤ r.energy) := by
  intro ps
  induction ps with
  | nil =>
      intro best hist hmem hle
      exact ⟨by simpa [minimizeLoop] using hmem, by simpa [minimizeLoop] using hle⟩
  | cons p ps ih =>
      intro best hist hmem hle
      simp only [minimizeLoop, cost_function_apply]
      by_cases hlt : evalRand hist.length - 1/2 < best.2
      · rw [if_pos hlt]
        apply ih
        · exact ⟨⟨hist.length, p, evalRand hist.length - 1/2⟩,
            List.mem_append_right _ (List.mem_singleton.mpr rfl), rfl⟩
        · intro r hr
          rcases List.mem_append.mp hr with h1 | h2
          · exact le_trans (le_of_lt hlt) (hle r h1)
          · rw [List.mem_singleton.mp h2]
      · rw [if_neg hlt]
        apply ih
        · obtain ⟨r, hr, he⟩ := hmem
          exact ⟨r, List.mem_append_left _ hr, he⟩
        · intro r hr
          rcases List.mem_append.mp hr with h1 | h2
          · exact hle r h1
          · rw [List.mem_singleton.mp h2]
            exact le_of_not_lt hlt

theorem execute_vqe_indices_aux (orch : Orchestrator) (hamRand : ℕ → ℕ → ℚ)
    (initRand : ℕ → ℚ) (evalRand : ℕ → ℚ) (proposals : List (List ℚ))
    (converged : Bool) (cfg : ProblemConfig) (max_iterations : ℕ) :
    (execute_vqe_workflow orch hamRand initRand evalRand proposals converged cfg
        max_iterations).1.iterations.map EvaluationRecord.iteration
      = List.range (execute_vqe_workflow orch hamRand initRand evalRand proposals converged
          cfg max_iterations).1.iterations.length := by
  simp only [execute_vqe_workflow, minimize, cost_function_apply, List.nil_append]
  apply minimizeLoop_indices
  simp [List.range_succ]

/-! ## Claim theorems -/

/-- Claim C1: for every workflow execution that completes, the
`WorkflowResult`'s `minimum_energy` field equals the minimum of the energy
values across all `EvaluationRecord`s in its history: it is attained by
some record and is a lower bound for every record. -/
theorem C1_minimum_energy_is_history_min (orch : Orchestrator) (hamRand : ℕ → ℕ → ℚ)
    (initRand : ℕ → ℚ) (evalRand : ℕ → ℚ) (proposals : List (List ℚ))
    (converged : Bool) (cfg : ProblemConfig) (max_iterations : ℕ) :
    (∃ r ∈ (execute_vqe_workflow orch hamRand initRand evalRand proposals converged cfg
        max_iterations).1.iterations,
      r.energy = (execute_vqe_workflow orch hamRand initRand evalRand proposals converged
        cfg max_iterations).1.minimum_energy) ∧
    ∀ r ∈ (execute_vqe_workflow orch hamRand initRand evalRand proposals converged cfg
        max_iterations).1.iterations,
      (execute_vqe_workflow orch hamRand initRand evalRand proposals converged cfg
        max_iterations).1.minimum_energy ≤ r.energy := by
  simp only [execute_vqe_workflow, minimize, cost_function_apply, List.nil_append,
    List.length_nil]
  apply minimizeLoop_min
  · exact ⟨⟨0, _, evalRand 0 - 1/2⟩, List.mem_singleton.mpr rfl, rfl⟩
  · intro r hr
    rw [List.mem_singleton.mp hr]

/-- Claim C2 counterexample: with `parameter_count = 0` the workflow does
not fail fast with an `InvalidSpec` error — no such error path exists in
the code.  At this concrete input the execution completes normally, the
initial point is still evaluated, and the history holds one record rather
than zero. -/
theorem C2_counterexample :
    ((execute_vqe_workflow ⟨"qiskit_simulator", []⟩ (fun _ _ => 0) (fun _ => 0)
        (fun _ => 0) [] true ⟨some 1, some 0, some 2, some "qiskit_simulator"⟩
        50).1.iterations.length = 1) ∧
    ((execute_vqe_workflow ⟨"qiskit_simulator", []⟩ (fun _ _ => 0) (fun _ => 0)
        (fun _ => 0) [] true ⟨some 1, some 0, some 2, some "qiskit_simulator"⟩
        50).2.execution_history.length = 1) :=
  ⟨rfl, rfl⟩

/-- Claim C2 (amended): the workflow performs no spec validation.  For a
problem config with `num_parameters = 0` nothing fails and nothing is
clamped: the operator is built, the optimizer is invoked on the empty
initial parameter vector, the initial evaluation appends a record with
index 0 and empty parameters, and the execution completes normally with
its result appended to the orchestrator's log. -/
theorem C2_amended_no_validation (orch : Orchestrator) (hamRand : ℕ → ℕ → ℚ)
    (initRand : ℕ → ℚ) (evalRand : ℕ → ℚ) (proposals : List (List ℚ))
    (converged : Bool) (cfg : ProblemConfig) (max_iterations : ℕ)
    (h : cfg.num_parameters = some 0) :
    (execute_vqe_workflow orch hamRand initRand evalRand proposals converged cfg
        max_iterations).1.iterations.head? = some ⟨0, [], evalRand 0 - 1/2⟩ ∧
    (execute_vqe_workflow orch hamRand initRand evalRand proposals converged cfg
        max_iterations).2.execution_history
      = orch.execution_history ++ [(execute_vqe_workflow orch hamRand initRand evalRand
          proposals converged cfg max_iterations).1] := by
  refine ⟨?_, rfl⟩
  simp only [execute_vqe_workflow, minimize, cost_function_apply, List.nil_append,
    List.length_nil, h, Option.getD_some, List.range_zero, List.map_nil]
  obtain ⟨t, ht⟩ := minimizeLoop_prefix evalRand (construct_hamiltonian hamRand cfg)
    (construct_ansatz cfg) (proposals.take max_iterations)
    ([], evalRand 0 - 1/2) [⟨0, [], evalRand 0 - 1/2⟩]
  rw [ht]
  rfl

/-- Witness for the amended C2 at a concrete config with
`num_parameters = 0`. -/
theorem C2_amended_witness :
    ((⟨some 1, some 0, some 2, some "qiskit_simulator"⟩ : ProblemConfig).num_parameters
        = some 0) ∧
    ((execute_vqe_workflow ⟨"qiskit_simulator", []⟩ (fun _ _ => 0) (fun _ => 0)
        (fun _ => 0) [] true ⟨some 1, some 0, some 2, some "qiskit_simulator"⟩
        50).1.iterations.head? = some ⟨0, [], (0 : ℚ) - 1/2⟩ ∧
      (execute_vqe_workflow ⟨"qiskit_simulator", []⟩ (fun _ _ => 0) (fun _ => 0)
        (fun _ => 0) [] true ⟨some 1, some 0, some 2, some "qiskit_simulator"⟩
        50).2.execution_history
        = [(execute_vqe_workflow ⟨"qiskit_simulator", []⟩ (fun _ _ => 0) (fun _ => 0)
            (fun _ => 0) [] true ⟨some 1, some 0, some 2, some "qiskit_simulator"⟩
            50).1]) :=
  ⟨rfl, C2_amended_no_validation ⟨"qiskit_simulator", []⟩ (fun _ _ => 0) (fun _ => 0)
    (fun _ => 0) [] true ⟨some 1, some 0, some 2, some "qiskit_simulator"⟩ 50 rfl⟩

/-- Claim C3: for every problem spec whose qubit count is `n`, the
Hamiltonian built from it is a square matrix of dimension exactly
`2 ^ n × 2 ^ n`. -/
theorem C3_hamiltonian_dimension (hamRand : ℕ → ℕ → ℚ) (cfg : ProblemConfig) (n : ℕ)
    (h : cfg.n_qubits = some n) :
    (construct_hamiltonian hamRand cfg).length = 2 ^ n ∧
    ∀ row ∈ construct_hamiltonian hamRand cfg, row.length = 2 ^ n := by
  constructor
  · simp [construct_hamiltonian, h]
  · intro row hrow
    simp only [construct_hamiltonian, h, Option.getD_some, List.mem_map] at hrow
    obtain ⟨i, hi, rfl⟩ := hrow
    simp

/-- Witness for C3 at a concrete spec with `qubit_count = 3`: the operator
is `8 × 8`. -/
theorem C3_witness :
    ((⟨some 3, some 4, some 2, some "qiskit_simulator"⟩ : ProblemConfig).n_qubits
        = some 3) ∧
    ((construct_hamiltonian (fun _ _ => 0)
        ⟨some 3, some 4, some 2, some "qiskit_simulator"⟩).length = 2 ^ 3 ∧
      ∀ row ∈ construct_hamiltonian (fun _ _ => 0)
        ⟨some 3, some 4, some 2, some "qiskit_simulator"⟩, row.length = 2 ^ 3) :=
  ⟨rfl, C3_hamiltonian_dimension (fun _ _ => 0) _ 3 rfl⟩

/-- Claim C4: within one workflow execution the history's iteration indices
are exactly `0, 1, 2, …` in order (`List.range` of its length), and every
call to the cost-function bridge appends exactly one record whose index
equals the number of records already present. -/
theorem C4_history_indices (orch : Orchestrator) (hamRand : ℕ → ℕ → ℚ)
    (initRand : ℕ → ℚ) (evalRand : ℕ → ℚ) (proposals : List (List ℚ))
    (converged : Bool) (cfg : ProblemConfig) (max_iterations : ℕ) :
    (∀ (ham : List (List ℚ)) (anz : Ansatz) (p : List ℚ)
        (hist : List EvaluationRecord),
      (cost_function evalRand ham anz p hist).2
        = hist ++ [⟨hist.length, p, (cost_function evalRand ham anz p hist).1⟩]) ∧
    (execute_vqe_workflow orch hamRand initRand evalRand proposals converged cfg
        max_iterations).1.iterations.map EvaluationRecord.iteration
      = List.range (execute_vqe_workflow orch hamRand initRand evalRand proposals
          converged cfg max_iterations).1.iterations.length :=
  ⟨fun _ _ _ _ => rfl,
   execute_vqe_indices_aux orch hamRand initRand evalRand proposals converged cfg
     max_iterations⟩

/-- Claim C5: the optimizer invokes the cost function at most
`max_iterations` times, plus at most one extra evaluation for the initial
point, so the resulting history has length at most `max_iterations + 1`. -/
theorem C5_history_length_bound (orch : Orchestrator) (hamRand : ℕ → ℕ → ℚ)
    (initRand : ℕ → ℚ) (evalRand : ℕ → ℚ) (proposals : List (List ℚ))
    (converged : Bool) (cfg : ProblemConfig) (max_iterations : ℕ) :
    (execute_vqe_workflow orch hamRand initRand evalRand proposals converged cfg
        max_iterations).1.iterations.length ≤ max_iterations + 1 := by
  simp only [execute_vqe_workflow, minimize, cost_function_apply, List.nil_append,
    List.length_nil]
  rw [minimizeLoop_length]
  simp only [List.length_cons, List.length_nil, List.length_take]
  omega

/-- Claim C6: resolving a backend identifier never fails: a registered
identifier yields its registered adapter, and an unregistered identifier
yields the default local-simulator adapter (`_qiskit_simulator`). -/
theorem C6_backend_resolution (backend_type : String) :
    (∀ a, adapters.lookup backend_type = some a →
      get_backend_adapter backend_type = a) ∧
    (adapters.lookup backend_type = none →
      get_backend_adapter backend_type = qiskit_simulator) := by
  unfold get_backend_adapter
  constructor
  · intro a h
    rw [h]
    rfl
  · intro h
    rw [h]
    rfl

/-- Witness for C6: `"braket"` resolves to its registered adapter, and the
unregistered `"nonexistent"` resolves to the default Qiskit simulator
adapter without failing. -/
theorem C6_witness :
    (adapters.lookup "braket" = some aws_braket
      ∧ get_backend_adapter "braket" = aws_braket) ∧
    (adapters.lookup "nonexistent" = none
      ∧ get_backend_adapter "nonexistent" = qiskit_simulator) :=
  ⟨⟨by decide, (C6_backend_resolution "braket").1 aws_braket (by decide)⟩,
   ⟨by decide, (C6_backend_resolution "nonexistent").2 (by decide)⟩⟩

/-- Claim C7: whenever the optimizer returns, the workflow completes and
produces a full `WorkflowResult` regardless of the `converged` flag: the
flag is reported through the result's `success` field, the result carries
the backend and problem, and it is appended to the orchestrator's log —
non-convergence is never escalated to a failure. -/
theorem C7_completes_regardless_of_convergence (orch : Orchestrator)
    (hamRand : ℕ → ℕ → ℚ) (initRand : ℕ → ℚ) (evalRand : ℕ → ℚ)
    (proposals : List (List ℚ)) (converged : Bool) (cfg : ProblemConfig)
    (max_iterations : ℕ) :
    (execute_vqe_workflow orch hamRand initRand evalRand proposals converged cfg
        max_iterations).1.success = converged ∧
    (execute_vqe_workflow orch hamRand initRand evalRand proposals converged cfg
        max_iterations).1.backend = orch.backend_type ∧
    (execute_vqe_workflow orch hamRand initRand evalRand proposals converged cfg
        max_iterations).1.problem = cfg ∧
    (execute_vqe_workflow orch hamRand initRand evalRand proposals converged cfg
        max_iterations).2.execution_history
      = orch.execution_history ++ [(execute_vqe_workflow orch hamRand initRand evalRand
          proposals converged cfg max_iterations).1] :=
  ⟨rfl, rfl, rfl, rfl⟩

/-- Claim C8: two sequential workflow executions on the same orchestrator
instance use independent histories: the second execution's iteration
indices restart at 0 (they are again exactly `0,1,2,…`), and the first
execution's stored result is unchanged — after both runs the log is the
original log extended by the first result and then the second. -/
theorem C8_sequential_runs_independent (o0 : Orchestrator)
    (hr1 : ℕ → ℕ → ℚ) (ir1 er1 : ℕ → ℚ) (ps1 : List (List ℚ)) (c1 : Bool)
    (cfg1 : ProblemConfig) (m1 : ℕ)
    (hr2 : ℕ → ℕ → ℚ) (ir2 er2 : ℕ → ℚ) (ps2 : List (List ℚ)) (c2 : Bool)
    (cfg2 : ProblemConfig) (m2 : ℕ) :
    ((execute_vqe_workflow (execute_vqe_workflow o0 hr1 ir1 er1 ps1 c1 cfg1 m1).2
        hr2 ir2 er2 ps2 c2 cfg2 m2).1.iterations.map EvaluationRecord.iteration
      = List.range (execute_vqe_workflow (execute_vqe_workflow o0 hr1 ir1 er1 ps1 c1
          cfg1 m1).2 hr2 ir2 er2 ps2 c2 cfg2 m2).1.iterations.length) ∧
    (execute_vqe_workflow (execute_vqe_workflow o0 hr1 ir1 er1 ps1 c1 cfg1 m1).2
        hr2 ir2 er2 ps2 c2 cfg2 m2).2.execution_history
      = o0.execution_history
        ++ [(execute_vqe_workflow o0 hr1 ir1 er1 ps1 c1 cfg1 m1).1,
            (execute_vqe_workflow (execute_vqe_workflow o0 hr1 ir1 er1 ps1 c1 cfg1
              m1).2 hr2 ir2 er2 ps2 c2 cfg2 m2).1] := by
  constructor
  · exact execute_vqe_indices_aux _ hr2 ir2 er2 ps2 c2 cfg2 m2
  · have h1 : (execute_vqe_workflow o0 hr1 ir1 er1 ps1 c1 cfg1 m1).2.execution_history
        = o0.execution_history
          ++ [(execute_vqe_workflow o0 hr1 ir1 er1 ps1 c1 cfg1 m1).1] := rfl
    have h2 : (execute_vqe_workflow (execute_vqe_workflow o0 hr1 ir1 er1 ps1 c1 cfg1
          m1).2 hr2 ir2 er2 ps2 c2 cfg2 m2).2.execution_history
        = (execute_vqe_workflow o0 hr1 ir1 er1 ps1 c1 cfg1 m1).2.execution_history
          ++ [(execute_vqe_workflow (execute_vqe_workflow o0 hr1 ir1 er1 ps1 c1 cfg1
            m1).2 hr2 ir2 er2 ps2 c2 cfg2 m2).1] := rfl
    rw [h2, h1, List.append_assoc]
    rfl

/-- Claim C9: the RBAC check is total and returns `true` exactly when the
role is one of the five statically defined roles and the requested action
is in that role's permission list. -/
theorem C9_check_access_iff (gov : GovState) (now user role action : String) :
    ROLES.length = 5 ∧
    ((check_access gov now user role action).1 = true ↔
      ∃ perms, ROLES.lookup role = some perms ∧ action ∈ perms) := by
  refine ⟨rfl, ?_⟩
  unfold check_access
  cases h : ROLES.lookup role with
  | none => simp
  | some perms =>
      by_cases ha : action ∈ perms
      · simp [ha]
      · simp [ha]

/-- Claim C10: recording data quality for a dataset identifier that has no
metadata record is a silent no-op: the whole governance state (metadata
store and audit log alike) is returned unchanged. -/
theorem C10_record_quality_missing_id_noop (gov : GovState) (dataset_id : String)
    (quality_metrics : List (String × ℚ))
    (h : gov.metadata_store.lookup dataset_id = none) :
    record_data_quality gov dataset_id quality_metrics = gov := by
  unfold record_data_quality
  simp [h]

/-- Witness for C10: on an empty metadata store, recording quality for
`"dataset_x"` returns the state unchanged. -/
theorem C10_witness :
    (GovState.mk [] []).metadata_store.lookup "dataset_x" = none ∧
    record_data_quality (GovState.mk [] []) "dataset_x" [] = GovState.mk [] [] :=
  ⟨rfl, C10_record_quality_missing_id_noop (GovState.mk [] []) "dataset_x" [] rfl⟩
